import Mathlib

/-!
Shallow embedding of the retrowin32 web debugger driver (the VM class of the
debugger page, its breakpoint table, its surface/window display layer), over
which the specification claims are formalised.

Modelling conventions:
* The JS `Map<number, Breakpoint>` is modelled as an association list with
  unique keys (`mapSet` replaces in place, as `Map.set` does).
* The execution engine (`wasm.Emulator`) is a black box; the parts of its
  state the driver reads are the program counter `eip`, the instruction
  counter, and its own breakpoint registration set (`breakpoint_add` /
  `breakpoint_clear`).  Single stepping and batch stepping are parameters
  (arbitrary functions), since their behaviour is external to this repo.
  An engine step may synchronously invoke the host `exit(code)` callback;
  that is modelled by the step function also returning `Option Nat`.
* JS numbers used for timing and averaging are modelled as rationals.
* A thrown JS runtime error is modelled as `Except.error`; each distinct
  failure site gets its own constructor, named after the error taxonomy of
  the design (NotFound, SizeMismatch, NoBackBuffer, the missing-window
  failure of create_surface).
-/

namespace Retrowin32

/-- One entry of the breakpoint table.  The `break.ts` module is not part of
the sources here; the fields are those the drivers read and write:
`addr`, `disabled` and `oneShot` (newer driver), `temporary` (older driver). -/
structure Breakpoint where
  addr : Nat
  disabled : Bool := false
  temporary : Bool := false
  oneShot : Bool := false
deriving Repr, DecidableEq

/-- Lookup in the address-keyed table, as `Map.get`. -/
def mapGet : List (Nat × Breakpoint) → Nat → Option Breakpoint
  | [], _ => none
  | (k, v) :: rest, a => if k = a then some v else mapGet rest a

/-- Insert or replace, as `Map.set` (replaces in place, keeps insertion order). -/
def mapSet : List (Nat × Breakpoint) → Nat → Breakpoint → List (Nat × Breakpoint)
  | [], k, v => [(k, v)]
  | (k', v') :: rest, k, v =>
    if k' = k then (k, v) :: rest else (k', v') :: mapSet rest k v

/-- Deletion, as `Map.delete`. -/
def mapDel : List (Nat × Breakpoint) → Nat → List (Nat × Breakpoint)
  | [], _ => []
  | (k', v') :: rest, k =>
    if k' = k then mapDel rest k else (k', v') :: mapDel rest k

theorem mapGet_mapSet (m : List (Nat × Breakpoint)) (k : Nat) (v : Breakpoint) (a : Nat) :
    mapGet (mapSet m k v) a = if k = a then some v else mapGet m a := by
  induction m with
  | nil => simp [mapSet, mapGet]
  | cons hd tl ih =>
    obtain ⟨k', v'⟩ := hd
    simp only [mapSet]
    by_cases hk : k' = k
    · subst hk
      rw [if_pos rfl]
      by_cases ha : k' = a
      · subst ha; simp [mapGet]
      · simp [mapGet, ha]
    · rw [if_neg hk]
      by_cases ha : k' = a
      · have hka : ¬k = a := fun h => hk (ha.trans h.symm)
        simp [mapGet, ha, hka]
      · simp [mapGet, ha, ih]

theorem mapGet_mapDel (m : List (Nat × Breakpoint)) (k : Nat) (a : Nat) :
    mapGet (mapDel m k) a = if k = a then none else mapGet m a := by
  induction m with
  | nil => simp [mapDel, mapGet]
  | cons hd tl ih =>
    obtain ⟨k', v'⟩ := hd
    simp only [mapDel]
    by_cases hk : k' = k
    · subst hk
      rw [if_pos rfl, ih]
      by_cases ha : k' = a
      · subst ha; simp [mapGet]
      · simp [mapGet, ha]
    · rw [if_neg hk]
      by_cases ha : k' = a
      · have hka : ¬k = a := fun h => hk (ha.trans h.symm)
        simp [mapGet, ha, hka]
      · simp [mapGet, ha, ih]

/-- Re-storing the value already present leaves the table unchanged
(replacement happens in place). -/
theorem mapSet_self (m : List (Nat × Breakpoint)) (k : Nat) (v : Breakpoint)
    (h : mapGet m k = some v) : mapSet m k v = m := by
  induction m with
  | nil => simp [mapGet] at h
  | cons hd tl ih =>
    obtain ⟨k', v'⟩ := hd
    by_cases hk : k' = k
    · subst hk
      simp [mapGet] at h
      simp [mapSet, h]
    · simp only [mapGet, if_neg hk] at h
      simp [mapSet, hk, ih h]

/-- Overwriting twice at the same key is overwriting once. -/
theorem mapSet_mapSet (m : List (Nat × Breakpoint)) (k : Nat) (v w : Breakpoint) :
    mapSet (mapSet m k v) k w = mapSet m k w := by
  induction m with
  | nil => simp [mapSet]
  | cons hd tl ih =>
    obtain ⟨k', v'⟩ := hd
    by_cases hk : k' = k
    · subst hk; simp [mapSet]
    · simp [mapSet, hk, ih]

/-- The error taxonomy: each constructor models one concrete JS throw site.
`notFound` is the undefined dereference in toggleBreak, `sizeMismatch` the
RangeError of TypedArray set in write_pixels, `noBackBuffer` the explicit
throws in get_attached and flip, `noWindow` the undefined dereference in
create_surface when no window exists. -/
inductive DriverError where
  | notFound
  | sizeMismatch
  | noBackBuffer
  | noWindow
deriving Repr, DecidableEq

/-- The slice of the external execution engine state the driver observes:
program counter, instruction counter, and the engine-side breakpoint
registration set maintained through breakpoint_add / breakpoint_clear. -/
structure Emu where
  eip : Nat
  instrCount : Nat
  breakSet : Finset Nat
deriving DecidableEq

/-- An engine single step is external: it produces a new engine state and may
synchronously call the host exit(code) callback (returned as `some code`). -/
abbrev EngineStep := Emu → Emu × Option Nat

/-- An engine batch step (step_many n): new engine state, optional synchronous
exit callback, and the ranAll flag (false when it stopped early at a
registered breakpoint). -/
abbrev EngineBatch := Nat → Emu → Emu × Option Nat × Bool

/-- The driver session state touched by stepping and the breakpoint table. -/
structure VMState where
  emu : Emu
  breakpoints : List (Nat × Breakpoint)
  exitCode : Option Nat
deriving DecidableEq

/-- The host exit(code) callback: unconditionally records the exit code. -/
def hostExit (s : VMState) (code : Nat) : VMState :=
  { s with exitCode := some code }

/-- Folds the optional synchronous exit callback of an engine step into the
driver state. -/
def applyExit (s : VMState) : Option Nat → VMState
  | some code => hostExit s code
  | none => s

/-- VM.addBreak: stores the breakpoint in the table and registers the address
with the engine. -/
def addBreak (s : VMState) (bp : Breakpoint) : VMState :=
  { s with
    breakpoints := mapSet s.breakpoints bp.addr bp,
    emu := { s.emu with breakSet := insert bp.addr s.emu.breakSet } }

/-- VM.delBreak: removes the table entry and clears the engine registration. -/
def delBreak (s : VMState) (addr : Nat) : VMState :=
  { s with
    breakpoints := mapDel s.breakpoints addr,
    emu := { s.emu with breakSet := s.emu.breakSet.erase addr } }

/-- VM.toggleBreak: the source dereferences the lookup result with a non-null
assertion, so an unregistered address throws (modelled as `notFound`);
otherwise the disabled flag is flipped and the engine registration is
cleared or re-added to match. -/
def toggleBreak (s : VMState) (addr : Nat) : Except DriverError VMState :=
  match mapGet s.breakpoints addr with
  | none => .error .notFound
  | some bp =>
    let bp' := { bp with disabled := !bp.disabled }
    let s' := { s with breakpoints := mapSet s.breakpoints addr bp' }
    if bp'.disabled then
      .ok { s' with emu := { s'.emu with breakSet := s'.emu.breakSet.erase addr } }
    else
      .ok { s' with emu := { s'.emu with breakSet := insert addr s'.emu.breakSet } }

/-- VM.checkBreak: true when stopped (exit recorded, or an enabled breakpoint
sits at the current program counter).  A hit oneShot breakpoint is removed
via delBreak; the selectedTab UI update of the non-oneShot branch has no
counterpart in this state. -/
def checkBreak (s : VMState) : VMState × Bool :=
  if s.exitCode.isSome then (s, true)
  else
    match mapGet s.breakpoints s.emu.eip with
    | some bp =>
      if !bp.disabled then
        if bp.oneShot then (delBreak s bp.addr, true) else (s, true)
      else (s, false)
    | none => (s, false)

/-- VM.step of the checkBreak-based driver: unconditionally advances the
engine one instruction (the step may invoke the host exit callback), then
reports whether execution may continue (the negation of checkBreak). -/
def stepVM (estep : EngineStep) (s : VMState) : VMState × Bool :=
  let r := estep s.emu
  let s1 := applyExit { s with emu := r.1 } r.2
  let c := checkBreak s1
  (c.1, !c.2)

/-- The adaptive batch-stepping state: stepSize starts at 5000 and
instrPerMs (the moving average of instructions per millisecond) at 0. -/
structure RunState where
  vm : VMState
  stepSize : Nat
  instrPerMs : ℚ
deriving DecidableEq

/-- VM.stepMany: runs one engine batch of stepSize instructions between two
wall-clock readings (passed in as the values performance.now returned).  If
the engine stopped early the driver only evaluates checkBreak; otherwise it
updates the moving average with the literal source formula
alpha * rate + (alpha - 1) * old for alpha = 1/2, and doubles stepSize when
the measured duration was under 10 ms. -/
def stepMany (batch : EngineBatch) (start finish : ℚ) (s : RunState) : RunState × Bool :=
  let r := batch s.stepSize s.vm.emu
  let vm1 := applyExit { s.vm with emu := r.1 } r.2.1
  let ranAll := r.2.2
  if !ranAll then
    let c := checkBreak vm1
    ({ s with vm := c.1 }, !c.2)
  else
    let delta := finish - start
    let rate := (s.stepSize : ℚ) / delta
    let alpha : ℚ := 1 / 2
    let s1 : RunState :=
      { vm := vm1, stepSize := s.stepSize,
        instrPerMs := alpha * rate + (alpha - 1) * s.instrPerMs }
    if delta < 10 then ({ s1 with stepSize := s1.stepSize * 2 }, true) else (s1, true)

/-- VM.step of the earlier driver revision (the one without checkBreak):
steps the engine, stops on a recorded exit, and on any breakpoint found at
the new program counter; a temporary breakpoint is deleted from the table
when hit.  That revision never registers breakpoints with the engine and
does not consult the disabled or oneShot flags. -/
def stepV0 (estep : EngineStep) (s : VMState) : VMState × Bool :=
  let r := estep s.emu
  let s1 := applyExit { s with emu := r.1 } r.2
  if s1.exitCode.isSome then (s1, false)
  else
    match mapGet s1.breakpoints s1.emu.eip with
    | some bp =>
      if bp.temporary then
        ({ s1 with breakpoints := mapDel s1.breakpoints bp.addr }, false)
      else (s1, false)
    | none => (s1, true)

/-- A drawing surface: dimensions, the primary flag, the canvas pixel bytes
(RGBA rows, 4 bytes per pixel), and the owned back-buffer surface (present
exactly when constructed with primary = true). -/
inductive Surface : Type where
  | mk (width height : Nat) (primary : Bool) (pix : List Nat) (back : Option Surface)

def Surface.width : Surface → Nat
  | .mk w _ _ _ _ => w

def Surface.height : Surface → Nat
  | .mk _ h _ _ _ => h

def Surface.primary : Surface → Bool
  | .mk _ _ p _ _ => p

def Surface.pix : Surface → List Nat
  | .mk _ _ _ px _ => px

def Surface.back : Surface → Option Surface
  | .mk _ _ _ _ b => b

/-- The canvas contents right after the Surface constructor ran: a fresh
canvas is transparent black (all zero bytes) and the constructor fills the
fixed rectangle 640 by 480 with opaque black, clipped to the canvas. -/
def initPixels (w h : Nat) : List Nat :=
  (List.range h).flatMap fun y =>
    (List.range w).flatMap fun x =>
      if x < 640 ∧ y < 480 then [0, 0, 0, 255] else [0, 0, 0, 0]

/-- The Surface constructor: a primary surface owns a freshly constructed
non-primary back buffer of the same dimensions. -/
def Surface.create (w h : Nat) (primary : Bool) : Surface :=
  .mk w h primary (initPixels w h)
    (if primary then some (.mk w h false (initPixels w h) none) else none)

/-- Surface.write_pixels: builds a fresh ImageData of the canvas size (all
zero bytes), copies the given buffer into it (TypedArray set throws a
RangeError when the source is longer than the target, modelled as
sizeMismatch), and putImageData replaces the full canvas contents. -/
def Surface.write_pixels : Surface → List Nat → Except DriverError Surface
  | .mk w h p _ b, pixels =>
    if w * h * 4 < pixels.length then .error .sizeMismatch
    else .ok (.mk w h p (pixels ++ List.replicate (w * h * 4 - pixels.length) 0) b)

/-- Surface.get_attached: returns the owned back buffer, throwing when there
is none. -/
def Surface.get_attached : Surface → Except DriverError Surface
  | .mk _ _ _ _ none => .error .noBackBuffer
  | .mk _ _ _ _ (some b) => .ok b

/-- Surface.flip: draws the back canvas at the origin, throwing when there is
no back buffer.  Back buffers are created with the same dimensions as the
primary, so the draw covers the full canvas; the draw is modelled as an
opaque full copy of the back pixel bytes. -/
def Surface.flip : Surface → Except DriverError Surface
  | .mk _ _ _ _ none => .error .noBackBuffer
  | .mk w h p _ (some b) => .ok (.mk w h p b.pix (some b))

/-- Writing a pixel buffer through the alias returned by get_attached: in the
source the back buffer is shared, so the write mutates the back buffer the
primary owns.  Functionally: write_pixels applied inside the back field. -/
def Surface.writeAttached : Surface → List Nat → Except DriverError Surface
  | .mk _ _ _ _ none, _ => .error .noBackBuffer
  | .mk w h p px (some b), pixels =>
    match b.write_pixels pixels with
    | .ok b' => .ok (.mk w h p px (some b'))
    | .error e => .error e

/-- A host window: session-unique key, plus the surface attached later by
create_surface (never by the constructor). -/
structure Window where
  key : Nat
  title : String := ""
  width : Nat := 0
  height : Nat := 0
  surface : Option Surface := none

/-- VM.create_window: pushes a window whose key is the new length and returns
that freshly pushed window. -/
def create_window (ws : List Window) : List Window × Window :=
  let id := ws.length + 1
  let w : Window := { key := id }
  (ws ++ [w], w)

/-- VM.create_surface: constructs the surface; when primary it assigns the
surface to windows[windows.length - 1], which is an undefined dereference
(a throw, modelled as noWindow) when no window was ever created. -/
def create_surface (ws : List Window) (width height : Nat) (primary : Bool) :
    Except DriverError (List Window × Surface) :=
  let s := Surface.create width height primary
  if primary then
    match ws.getLast? with
    | none => .error .noWindow
    | some w => .ok (ws.dropLast ++ [{ w with surface := some s }], s)
  else
    .ok (ws, s)

/-- The synchronization contract between the breakpoint table and the engine
registration set: an address is registered with the engine exactly when an
enabled breakpoint for it is in the table. -/
def Consistent (s : VMState) : Prop :=
  ∀ a : Nat, a ∈ s.emu.breakSet ↔
    ∃ bp : Breakpoint, mapGet s.breakpoints a = some bp ∧ bp.disabled = false

/-- The table operations of the driver, including checkBreak (whose oneShot
branch removes a table entry and its engine registration). -/
inductive TableOp where
  | add (bp : Breakpoint)
  | del (addr : Nat)
  | toggle (addr : Nat)
  | check

/-- Runs one table operation; a toggle of an unregistered address throws in
the source, leaving the state unchanged. -/
def applyOp (op : TableOp) (s : VMState) : VMState :=
  match op with
  | .add bp => addBreak s bp
  | .del a => delBreak s a
  | .toggle a =>
    match toggleBreak s a with
    | .ok s' => s'
    | .error _ => s
  | .check => (checkBreak s).1

/-- The breakpoint control surface only carries the temporary and oneShot
flags, so breakpoints are added enabled. -/
def opWF : TableOp → Prop
  | .add bp => bp.disabled = false
  | _ => True

/-- C9: a surface constructed with primary = false has no back buffer, so
get_attached and flip both fail with the no-back-buffer error; a surface
constructed with primary = true owns a back buffer, so get_attached returns
it (the freshly constructed non-primary surface of the same dimensions) and
flip succeeds. -/
theorem C9_nonprimary_fails_primary_succeeds (w h : Nat) :
    (Surface.create w h false).get_attached = .error .noBackBuffer ∧
    (Surface.create w h false).flip = .error .noBackBuffer ∧
    (Surface.create w h true).get_attached =
      .ok (Surface.mk w h false (initPixels w h) none) ∧
    (Surface.create w h true).flip =
      .ok (Surface.mk w h true (initPixels w h)
        (some (Surface.mk w h false (initPixels w h) none))) :=
  ⟨rfl, rfl, rfl, rfl⟩

/-- C6 counterexample: writing a 2-byte buffer to a 1-by-1 surface (whose
pixel content is 4 bytes) succeeds instead of failing, and changes the
surface contents; the claim requires every length other than
width * height * 4 to fail with sizeMismatch leaving the surface unchanged. -/
theorem C6_counterexample :
    (Surface.create 1 1 false).write_pixels [1, 2] =
      .ok (Surface.mk 1 1 false [1, 2, 0, 0] none) ∧
    ¬([1, 2].length = 1 * 1 * 4) ∧
    (Surface.mk 1 1 false [1, 2, 0, 0] none).pix ≠ (Surface.create 1 1 false).pix := by
  refine ⟨rfl, by decide, ?_⟩
  simp only [Surface.pix, Surface.create]
  decide

/-- C6 amended: write_pixels replaces the full pixel contents when the buffer
length equals width * height * 4; it fails with sizeMismatch (surface
unchanged) only when the buffer is longer than that; a shorter buffer is
accepted, the missing tail being filled with zero bytes. -/
theorem C6_write_pixels_cases (w h : Nat) (p : Bool) (px : List Nat)
    (b : Option Surface) (buf : List Nat) :
    (buf.length = w * h * 4 →
      (Surface.mk w h p px b).write_pixels buf = .ok (.mk w h p buf b)) ∧
    (w * h * 4 < buf.length →
      (Surface.mk w h p px b).write_pixels buf = .error .sizeMismatch) ∧
    (buf.length < w * h * 4 →
      (Surface.mk w h p px b).write_pixels buf =
        .ok (.mk w h p (buf ++ List.replicate (w * h * 4 - buf.length) 0) b)) := by
  refine ⟨fun hlen => ?_, fun hlt => ?_, fun hlt => ?_⟩
  · simp [Surface.write_pixels, hlen]
  · simp [Surface.write_pixels, hlt]
  · simp [Surface.write_pixels, Nat.not_lt.mpr hlt.le]

/-- C6 witness: on a 1-by-1 surface, a 4-byte buffer is written verbatim and
a 5-byte buffer is rejected with sizeMismatch. -/
theorem C6_write_pixels_cases_witness :
    (Surface.mk 1 1 false [9, 9, 9, 9] none).write_pixels [1, 2, 3, 4] =
      .ok (.mk 1 1 false [1, 2, 3, 4] none) ∧
    (Surface.mk 1 1 false [9, 9, 9, 9] none).write_pixels [1, 2, 3, 4, 5] =
      .error .sizeMismatch :=
  ⟨(C6_write_pixels_cases 1 1 false [9, 9, 9, 9] none [1, 2, 3, 4]).1 (by decide),
   (C6_write_pixels_cases 1 1 false [9, 9, 9, 9] none [1, 2, 3, 4, 5]).2.1 (by decide)⟩

/-- C8: writing a full-size pixel buffer through the back buffer of a primary
surface and then flipping the primary makes the primary contents equal that
buffer byte-for-byte. -/
theorem C8_flip_presents_back_buffer (w h : Nat) (buf : List Nat)
    (hlen : buf.length = w * h * 4) :
    ∃ s1 s2, (Surface.create w h true).writeAttached buf = .ok s1 ∧
      s1.flip = .ok s2 ∧ s2.pix = buf := by
  refine ⟨Surface.mk w h true (initPixels w h) (some (.mk w h false buf none)),
    Surface.mk w h true buf (some (.mk w h false buf none)), ?_, ?_, rfl⟩
  · simp [Surface.create, Surface.writeAttached, Surface.write_pixels, hlen]
  · simp [Surface.flip, Surface.pix]

/-- C8 witness: the 1-by-1 primary surface presents the four written bytes
after a flip. -/
theorem C8_flip_presents_back_buffer_witness :
    ∃ s1 s2, (Surface.create 1 1 true).writeAttached [10, 20, 30, 40] = .ok s1 ∧
      s1.flip = .ok s2 ∧ s2.pix = [10, 20, 30, 40] :=
  C8_flip_presents_back_buffer 1 1 [10, 20, 30, 40] (by decide)

/-- C10: create_surface with primary = true assigns the new surface to the
last window of the list (the most recently created one, since create_window
appends), leaving the other windows untouched; with no window ever created
the assignment dereferences an undefined element and throws. -/
theorem C10_primary_surface_binding (ws : List Window) (w h : Nat) :
    (∀ win rest, ws = rest ++ [win] →
      create_surface ws w h true =
        .ok (rest ++ [{ win with surface := some (Surface.create w h true) }],
          Surface.create w h true)) ∧
    (ws = [] → create_surface ws w h true = .error .noWindow) := by
  constructor
  · rintro win rest rfl
    simp [create_surface]
  · rintro rfl
    simp [create_surface]

/-- C10 witness: with one window created the primary surface is bound to it;
with none the call fails. -/
theorem C10_primary_surface_binding_witness :
    create_surface [{ key := 1 }] 2 2 true =
      .ok ([{ key := 1, surface := some (Surface.create 2 2 true) }],
        Surface.create 2 2 true) ∧
    create_surface [] 2 2 true = .error .noWindow :=
  ⟨(C10_primary_surface_binding [{ key := 1 }] 2 2).1 { key := 1 } [] rfl,
   (C10_primary_surface_binding [] 2 2).2 rfl⟩

/-- A fresh engine observation: program counter 0, nothing executed, no
registrations. -/
def emu0 : Emu := { eip := 0, instrCount := 0, breakSet := ∅ }

/-- A session with an empty breakpoint table and no exit recorded. -/
def vmEx0 : VMState := { emu := emu0, breakpoints := [], exitCode := none }

/-- The initial batch-stepping state of the driver. -/
def rs0 : RunState := { vm := vmEx0, stepSize := 5000, instrPerMs := 0 }

/-- A sample engine batch that executes all requested instructions. -/
def cbatchAll : EngineBatch :=
  fun n e => ({ e with instrCount := e.instrCount + n }, none, true)

/-- A sample engine batch that stops early (at an engine-registered
breakpoint) without advancing. -/
def cbatchStop : EngineBatch := fun _ e => (e, none, false)

/-- A sample engine single step that advances the program counter and the
instruction counter. -/
def incStep : EngineStep :=
  fun e => ({ e with eip := e.eip + 1, instrCount := e.instrCount + 1 }, none)

/-- A session whose guest already exited with code 3. -/
def vmExit3 : VMState := { emu := emu0, breakpoints := [], exitCode := some 3 }

/-- A sample engine single step that lands on address 7. -/
def jump7 : EngineStep :=
  fun e => ({ e with eip := 7, instrCount := e.instrCount + 1 }, none)

/-- A breakpoint at address 7 carrying only the temporary flag. -/
def bpTemp7 : Breakpoint := { addr := 7, temporary := true }

/-- A session holding only the temporary breakpoint at 7, registered with the
engine. -/
def vmTemp : VMState :=
  { emu := { eip := 0, instrCount := 0, breakSet := {7} },
    breakpoints := [(7, bpTemp7)], exitCode := none }

/-- A breakpoint at address 7 carrying only the oneShot flag. -/
def bpOne7 : Breakpoint := { addr := 7, oneShot := true }

/-- A session holding only the oneShot breakpoint at 7, registered with the
engine. -/
def vmOne : VMState :=
  { emu := { eip := 0, instrCount := 0, breakSet := {7} },
    breakpoints := [(7, bpOne7)], exitCode := none }

/-- An enabled plain breakpoint at address 5. -/
def bp5 : Breakpoint := { addr := 5 }

/-- A session holding the plain breakpoint at 5, registered with the engine. -/
def vmBp5 : VMState :=
  { emu := { eip := 0, instrCount := 0, breakSet := {5} },
    breakpoints := [(5, bp5)], exitCode := none }

/-- C1: when the engine runs the full batch, stepMany updates the moving
average by exactly newAvg = (1/2) * currentRate - (1/2) * oldAvg, where
currentRate is the batch size divided by the measured duration.  Timing
values are modelled as rationals; the positive-duration hypothesis keeps the
rational division aligned with the JS one. -/
theorem C1_moving_average_law (batch : EngineBatch) (start finish : ℚ)
    (s : RunState) (e : Emu) (oc : Option Nat)
    (hb : batch s.stepSize s.vm.emu = (e, oc, true))
    (_ht : start < finish) :
    (stepMany batch start finish s).1.instrPerMs =
      (1 / 2) * ((s.stepSize : ℚ) / (finish - start)) - (1 / 2) * s.instrPerMs := by
  by_cases hd : finish - start < 10
  · simp only [stepMany, hb, Bool.not_true, Bool.false_eq_true, if_false, if_pos hd]
    ring
  · simp only [stepMany, hb, Bool.not_true, Bool.false_eq_true, if_false, if_neg hd]
    ring

/-- C1 witness: a full 5000-instruction batch measured at 1 ms moves the
average from 0 to 2500. -/
theorem C1_moving_average_law_witness :
    (stepMany cbatchAll 0 1 rs0).1.instrPerMs =
      (1 / 2) * ((rs0.stepSize : ℚ) / (1 - 0)) - (1 / 2) * rs0.instrPerMs :=
  C1_moving_average_law cbatchAll 0 1 rs0
    { emu0 with instrCount := 5000 } none rfl (by norm_num)

/-- C4 counterexample: a stepMany call whose batch stops early after a
measured duration of 1 ms (under 10 ms) leaves stepBatchSize at 5000 instead
of doubling it, refuting the claim for interrupted batches. -/
theorem C4_counterexample :
    (stepMany cbatchStop 0 1 rs0).1.stepSize = rs0.stepSize ∧
    rs0.stepSize ≠ 2 * rs0.stepSize ∧ (1 : ℚ) - 0 < 10 := by
  refine ⟨rfl, by decide, by norm_num⟩

/-- C4 amended: when the batch runs to completion, stepBatchSize doubles for
a measured duration under 10 ms and is unchanged for 10 ms or more; when the
batch is interrupted it is unchanged; in every case it never shrinks. -/
theorem C4_step_size_adaptation (batch : EngineBatch) (start finish : ℚ)
    (s : RunState) (e : Emu) (oc : Option Nat) (ranAll : Bool)
    (hb : batch s.stepSize s.vm.emu = (e, oc, ranAll)) :
    (ranAll = true → finish - start < 10 →
      (stepMany batch start finish s).1.stepSize = 2 * s.stepSize) ∧
    (ranAll = true → 10 ≤ finish - start →
      (stepMany batch start finish s).1.stepSize = s.stepSize) ∧
    (ranAll = false →
      (stepMany batch start finish s).1.stepSize = s.stepSize) ∧
    s.stepSize ≤ (stepMany batch start finish s).1.stepSize := by
  cases ranAll with
  | false =>
    refine ⟨fun h => by simp at h, fun h => by simp at h, fun _ => ?_, ?_⟩ <;>
      simp [stepMany, hb]
  | true =>
    by_cases hd : finish - start < 10
    · refine ⟨fun _ _ => ?_, fun _ hge => absurd hd (not_lt.mpr hge), fun h => by simp at h, ?_⟩
      · simp only [stepMany, hb, Bool.not_true, Bool.false_eq_true, if_false, if_pos hd]
        omega
      · simp only [stepMany, hb, Bool.not_true, Bool.false_eq_true, if_false, if_pos hd]
        omega
    · refine ⟨fun _ hlt => absurd hlt hd, fun _ _ => ?_, fun h => by simp at h, ?_⟩ <;>
        simp [stepMany, hb, hd]

/-- C4 witness: a full batch measured at 1 ms doubles stepBatchSize from 5000
to 10000, and a full batch measured at 12 ms leaves it at 5000. -/
theorem C4_step_size_adaptation_witness :
    (stepMany cbatchAll 0 1 rs0).1.stepSize = 2 * rs0.stepSize ∧
    (stepMany cbatchAll 0 12 rs0).1.stepSize = rs0.stepSize :=
  ⟨(C4_step_size_adaptation cbatchAll 0 1 rs0
      { emu0 with instrCount := 5000 } none true rfl).1 rfl (by norm_num),
   (C4_step_size_adaptation cbatchAll 0 12 rs0
      { emu0 with instrCount := 5000 } none true rfl).2.1 rfl (by norm_num)⟩

/-- C2 counterexample: with the exit code already recorded, a step call still
advances the engine (here the instruction counter grows), so it is not a
no-op on the session state; it does report stopped. -/
theorem C2_counterexample :
    vmExit3.exitCode = some 3 ∧
    (stepVM incStep vmExit3).2 = false ∧
    (stepVM incStep vmExit3).1.emu ≠ vmExit3.emu := by
  refine ⟨rfl, rfl, ?_⟩
  intro heq
  have h := congrArg Emu.instrCount heq
  simp [stepVM, incStep, vmExit3, emu0, applyExit, checkBreak] at h

/-- C2 amended: a step call made after exitCode has been set returns false
(stopped) with the exit code still recorded and the breakpoint table
untouched, but only after advancing the engine one more instruction: the
resulting engine state is the stepped one, not the original. -/
theorem C2_step_after_exit (estep : EngineStep) (s : VMState) (c : Nat)
    (h : s.exitCode = some c) :
    (stepVM estep s).2 = false ∧
    (stepVM estep s).1.emu = (estep s.emu).1 ∧
    (stepVM estep s).1.breakpoints = s.breakpoints ∧
    (stepVM estep s).1.exitCode.isSome = true := by
  cases ho : (estep s.emu).2 with
  | none => simp [stepVM, applyExit, checkBreak, h, ho]
  | some c2 => simp [stepVM, applyExit, hostExit, checkBreak, h, ho]

/-- C2 witness: after exit code 3 was recorded, a step still reports stopped
and leaves the engine at the state the extra step produced. -/
theorem C2_step_after_exit_witness :
    (stepVM incStep vmExit3).2 = false ∧
    (stepVM incStep vmExit3).1.emu = (incStep vmExit3.emu).1 ∧
    (stepVM incStep vmExit3).1.breakpoints = vmExit3.breakpoints ∧
    (stepVM incStep vmExit3).1.exitCode.isSome = true :=
  C2_step_after_exit incStep vmExit3 3 rfl

/-- C3 counterexample: a breakpoint carrying only the temporary flag is hit
by the checkBreak-based driver (the step reports stopped at its address),
yet the breakpoint is still found in the table afterwards, refuting removal
for temporary breakpoints in that driver. -/
theorem C3_counterexample :
    (stepVM jump7 vmTemp).2 = false ∧
    (stepVM jump7 vmTemp).1.emu.eip = 7 ∧
    mapGet (stepVM jump7 vmTemp).1.breakpoints 7 = some bpTemp7 := by
  decide

/-- C3 amended: in the checkBreak-based driver a hit enabled oneShot
breakpoint is removed from the table by the time the step returns; in the
earlier driver revision the same holds for a hit temporary breakpoint; the
temporary flag alone does not cause removal in the newer driver. -/
theorem C3_one_shot_removed :
    (∀ (estep : EngineStep) (s : VMState) (e : Emu) (bp : Breakpoint),
      estep s.emu = (e, none) → s.exitCode = none →
      mapGet s.breakpoints e.eip = some bp →
      bp.disabled = false → bp.oneShot = true →
      (stepVM estep s).2 = false ∧
        mapGet (stepVM estep s).1.breakpoints bp.addr = none) ∧
    (∀ (estep : EngineStep) (s : VMState) (e : Emu) (bp : Breakpoint),
      estep s.emu = (e, none) → s.exitCode = none →
      mapGet s.breakpoints e.eip = some bp → bp.temporary = true →
      (stepV0 estep s).2 = false ∧
        mapGet (stepV0 estep s).1.breakpoints bp.addr = none) := by
  constructor
  · intro estep s e bp he hex hbp hd hos
    simp [stepVM, applyExit, checkBreak, he, hex, hbp, hd, hos, delBreak, mapGet_mapDel]
  · intro estep s e bp he hex hbp htmp
    simp [stepV0, applyExit, he, hex, hbp, htmp, mapGet_mapDel]

/-- C3 witness: the oneShot breakpoint at 7 stops the newer driver and is
gone from its table; the temporary breakpoint at 7 stops the earlier driver
and is gone from its table. -/
theorem C3_one_shot_removed_witness :
    ((stepVM jump7 vmOne).2 = false ∧
      mapGet (stepVM jump7 vmOne).1.breakpoints bpOne7.addr = none) ∧
    ((stepV0 jump7 vmTemp).2 = false ∧
      mapGet (stepV0 jump7 vmTemp).1.breakpoints bpTemp7.addr = none) :=
  ⟨C3_one_shot_removed.1 jump7 vmOne
      { eip := 7, instrCount := 1, breakSet := {7} } bpOne7 rfl rfl rfl rfl rfl,
   C3_one_shot_removed.2 jump7 vmTemp
      { eip := 7, instrCount := 1, breakSet := {7} } bpTemp7 rfl rfl rfl rfl⟩

/-- Closed form of toggleBreak on a registered address. -/
theorem toggleBreak_eq (s : VMState) (addr : Nat) (bp : Breakpoint)
    (h : mapGet s.breakpoints addr = some bp) :
    toggleBreak s addr = .ok
      { s with
        breakpoints := mapSet s.breakpoints addr { bp with disabled := !bp.disabled },
        emu := { s.emu with breakSet :=
          if bp.disabled then insert addr s.emu.breakSet
          else s.emu.breakSet.erase addr } } := by
  by_cases hd : bp.disabled <;> simp [toggleBreak, h, hd]

/-- Two driver states are equal once all their observable fields agree. -/
theorem VMState.ext_fields {s t : VMState} (h1 : s.emu.eip = t.emu.eip)
    (h2 : s.emu.instrCount = t.emu.instrCount)
    (h3 : s.emu.breakSet = t.emu.breakSet)
    (h4 : s.breakpoints = t.breakpoints) (h5 : s.exitCode = t.exitCode) :
    s = t := by
  obtain ⟨⟨a1, a2, a3⟩, a4, a5⟩ := s
  obtain ⟨⟨b1, b2, b3⟩, b4, b5⟩ := t
  simp only [VMState.mk.injEq, Emu.mk.injEq]
  simp only at h1 h2 h3 h4 h5
  exact ⟨⟨h1, h2, h3⟩, h4, h5⟩

/-- C5: toggling an unregistered address fails with notFound (the state is
not rebuilt, hence unchanged); toggling a registered address flips exactly
its disabled flag, touching no other table entry nor the rest of the
session, and toggling twice restores the original state exactly, provided
the engine registration agreed with the table to begin with. -/
theorem C5_toggle_disabled (s : VMState) (addr : Nat) :
    (mapGet s.breakpoints addr = none → toggleBreak s addr = .error .notFound) ∧
    (∀ bp, mapGet s.breakpoints addr = some bp →
      ∃ s2, toggleBreak s addr = .ok s2 ∧
        mapGet s2.breakpoints addr = some { bp with disabled := !bp.disabled } ∧
        (∀ a, a ≠ addr → mapGet s2.breakpoints a = mapGet s.breakpoints a) ∧
        s2.exitCode = s.exitCode ∧ s2.emu.eip = s.emu.eip ∧
        (Consistent s → ∃ s3, toggleBreak s2 addr = .ok s3 ∧ s3 = s)) := by
  constructor
  · intro h
    simp [toggleBreak, h]
  · intro bp h
    refine ⟨_, toggleBreak_eq s addr bp h, ?_, ?_, rfl, rfl, ?_⟩
    · simp [mapGet_mapSet]
    · intro a ha
      have hna : ¬addr = a := fun hh => ha hh.symm
      simp [mapGet_mapSet, hna]
    · intro hc
      have h2 : mapGet (mapSet s.breakpoints addr { bp with disabled := !bp.disabled })
          addr = some { bp with disabled := !bp.disabled } := by
        simp [mapGet_mapSet]
      refine ⟨_, toggleBreak_eq _ addr { bp with disabled := !bp.disabled } h2, ?_⟩
      have hbps : mapSet (mapSet s.breakpoints addr { bp with disabled := !bp.disabled })
          addr { bp with disabled := !(!bp.disabled) } = s.breakpoints := by
        rw [mapSet_mapSet, Bool.not_not]
        exact mapSet_self s.breakpoints addr bp h
      by_cases hd : bp.disabled
      · have hmem : addr ∉ s.emu.breakSet := by
          intro hm
          obtain ⟨c, hc1, hc2⟩ := (hc addr).mp hm
          rw [h, Option.some_inj] at hc1
          rw [← hc1, hd] at hc2
          exact Bool.noConfusion hc2
        refine VMState.ext_fields rfl rfl ?_ hbps rfl
        simp [hd, Finset.erase_insert hmem]
      · have hmem : addr ∈ s.emu.breakSet := by
          refine (hc addr).mpr ⟨bp, h, ?_⟩
          simpa using hd
        refine VMState.ext_fields rfl rfl ?_ hbps rfl
        simp [hd, Finset.insert_erase hmem]

/-- C5 witness: toggling address 9 (unregistered) fails with notFound;
toggling the registered address 5 disables it, and toggling it twice brings
the session back to the original state. -/
theorem C5_toggle_disabled_witness :
    (toggleBreak vmBp5 9 = .error .notFound) ∧
    (∃ s2, toggleBreak vmBp5 5 = .ok s2 ∧
      mapGet s2.breakpoints 5 = some { bp5 with disabled := !bp5.disabled } ∧
      (∀ a, a ≠ 5 → mapGet s2.breakpoints a = mapGet vmBp5.breakpoints a) ∧
      s2.exitCode = vmBp5.exitCode ∧ s2.emu.eip = vmBp5.emu.eip ∧
      (Consistent vmBp5 → ∃ s3, toggleBreak s2 5 = .ok s3 ∧ s3 = vmBp5)) :=
  ⟨(C5_toggle_disabled vmBp5 9).1 rfl,
   (C5_toggle_disabled vmBp5 5).2 bp5 rfl⟩

/-- addBreak keeps the table and the engine registration in sync when the
added breakpoint is enabled (the control surface never adds disabled ones). -/
theorem consistent_addBreak (s : VMState) (bp : Breakpoint)
    (hbp : bp.disabled = false) (hs : Consistent s) :
    Consistent (addBreak s bp) := by
  intro a
  simp only [addBreak, Finset.mem_insert, mapGet_mapSet]
  by_cases hk : bp.addr = a
  · simp [hk, hbp]
  · have hka : ¬a = bp.addr := fun hh => hk hh.symm
    simp [hk, hka, hs a]

/-- delBreak keeps the table and the engine registration in sync. -/
theorem consistent_delBreak (s : VMState) (addr : Nat) (hs : Consistent s) :
    Consistent (delBreak s addr) := by
  intro a
  simp only [delBreak, Finset.mem_erase, mapGet_mapDel]
  by_cases hk : addr = a
  · simp [hk]
  · have hka : ¬a = addr := fun hh => hk hh.symm
    simp [hk, hka, hs a]

/-- toggleBreak keeps the table and the engine registration in sync. -/
theorem consistent_toggle (s : VMState) (addr : Nat) (hs : Consistent s) :
    Consistent (applyOp (TableOp.toggle addr) s) := by
  cases hbp : mapGet s.breakpoints addr with
  | none =>
    simpa [applyOp, toggleBreak, hbp] using hs
  | some bp =>
    simp only [applyOp, toggleBreak_eq s addr bp hbp]
    intro a
    by_cases hk : addr = a
    · subst hk
      by_cases hd : bp.disabled <;> simp [hd, mapGet_mapSet]
    · have hka : ¬a = addr := fun hh => hk hh.symm
      by_cases hd : bp.disabled <;>
        simp [hd, mapGet_mapSet, hk, hka, Finset.mem_insert, Finset.mem_erase, hs a]

/-- C7: every table operation of the driver (add of an enabled breakpoint,
remove, toggleDisabled, and the checkBreak pass that removes a hit oneShot
breakpoint) preserves the synchronization contract: an address is in the
engine break set exactly when an enabled breakpoint for it is in the table. -/
theorem C7_engine_sync (op : TableOp) (s : VMState) (hop : opWF op)
    (hs : Consistent s) : Consistent (applyOp op s) := by
  cases op with
  | add bp => exact consistent_addBreak s bp hop hs
  | del a => exact consistent_delBreak s a hs
  | toggle a => exact consistent_toggle s a hs
  | check =>
    simp only [applyOp, checkBreak]
    cases he : s.exitCode.isSome
    · simp only [Bool.false_eq_true, if_false]
      cases hbp : mapGet s.breakpoints s.emu.eip with
      | none => exact hs
      | some bp =>
        by_cases hd : bp.disabled
        · simp [hd]; exact hs
        · by_cases ho : bp.oneShot
          · simpa [hd, ho] using consistent_delBreak s bp.addr hs
          · simp [hd, ho]; exact hs
    · simpa [he] using hs

/-- C7 witness: starting from a consistent session holding the enabled
breakpoint at 5, removing address 0 keeps table and engine in sync. -/
theorem C7_engine_sync_witness :
    Consistent (applyOp (TableOp.del 0) vmBp5) := by
  refine C7_engine_sync (TableOp.del 0) vmBp5 trivial ?_
  intro a
  constructor
  · intro hm
    have ha : a = 5 := by
      simpa [vmBp5] using hm
    exact ⟨bp5, by simp [vmBp5, mapGet, ha], rfl⟩
  · rintro ⟨c, hc1, -⟩
    by_cases ha : a = 5
    · simp [vmBp5, ha]
    · have ha2 : ¬(5 : Nat) = a := fun hh => ha hh.symm
      simp [vmBp5, mapGet, ha2] at hc1

end Retrowin32
